import Mathlib

/-!
Shallow embedding of the Accesly single-owner wallet contract
(src/contracts/accountAbstraction/src/lib.rs) and proofs of the
specified properties.

Byte strings are modelled as lists of naturals (each entry a byte value);
fixed-size byte arrays as length-constrained subtypes.  Instance storage
is a record of the three storage slots (DataKey.Owner, DataKey.EmailHash,
DataKey.Nonce), each optional exactly as in the host key-value store.
The ed25519 oracle is an external collaborator, modelled as a boolean
function parameter; in SDK 22.x a failed verification traps (panics)
rather than returning, which the embedding represents with the trap
outcome.  Each entry point returns its outcome together with the
post-call storage and the list of events published during the call.
-/

namespace Accesly

/-- Error codes of the contracterror enum, discriminants 1..9. -/
inductive Error where
  | AlreadyInitialized
  | NotInitialized
  | InvalidOwner
  | InvalidEmailHash
  | InvalidSignature
  | InvalidNonce
  | SameOwner
  | Unauthorized
  | ReplayAttack
  deriving DecidableEq, Repr

/-- A 32-byte value (BytesN of size 32). -/
abbrev Bytes32 := { l : List Nat // l.length = 32 }

/-- A 64-byte value (BytesN of size 64). -/
abbrev Bytes64 := { l : List Nat // l.length = 64 }

/-- The instance storage of one wallet: one slot per DataKey variant,
absent until written, exactly as the host key-value store. -/
structure Storage where
  owner : Option Bytes32
  emailHash : Option Bytes32
  nonce : Option Nat
  deriving DecidableEq, Repr

/-- The three events the contract publishes. -/
inductive Event where
  | walletCreated (owner emailHash : Bytes32)
  | authSuccess (owner : Bytes32) (nonce : Nat)
  | keyRotated (oldOwner newOwner : Bytes32) (nonce : Nat)
  deriving DecidableEq, Repr

/-- Outcome of a contract invocation: Ok, a typed contract Error, or a
trap (the panic raised by ed25519_verify in SDK 22.x on a bad signature). -/
inductive CallResult (α : Type) where
  | ok (a : α)
  | err (e : Error)
  | trap
  deriving DecidableEq, Repr

/-- The external ed25519 oracle: public key, message bytes, signature. -/
abbrev VerifyFn := Bytes32 → List Nat → Bytes64 → Bool

/-- u64 checked_add 1: some (n+1) while it fits in 64 bits, else none. -/
def u64CheckedAddOne (n : Nat) : Option Nat :=
  if n + 1 < 2 ^ 64 then some (n + 1) else none

/-- u64 to_be_bytes: the eight bytes of n, most significant first. -/
def u64ToBeBytes (n : Nat) : List Nat :=
  [n / 2 ^ 56 % 256, n / 2 ^ 48 % 256, n / 2 ^ 40 % 256, n / 2 ^ 32 % 256,
   n / 2 ^ 24 % 256, n / 2 ^ 16 % 256, n / 2 ^ 8 % 256, n % 256]

/-- Helper is_zero_bytes: true iff every byte is 0. -/
def is_zero_bytes (b : Bytes32) : Bool :=
  b.val.all (fun x => x == 0)

/-- The ASCII bytes of the domain tag string update_owner. -/
def updateOwnerTag : List Nat :=
  [117, 112, 100, 97, 116, 101, 95, 111, 119, 110, 101, 114]

/-- Canonical rotation message: tag bytes, then new owner, then nonce BE. -/
def updateOwnerMessage (new_owner : Bytes32) (nonce : Nat) : List Nat :=
  updateOwnerTag ++ new_owner.val ++ u64ToBeBytes nonce

/-- Canonical general-authorization message: payload, then nonce BE. -/
def authMessage (signature_payload : Bytes32) (nonce : Nat) : List Nat :=
  signature_payload.val ++ u64ToBeBytes nonce

/-- init: one-shot initialization of owner, email hash, and nonce. -/
def init (s : Storage) (owner email_hash : Bytes32) :
    CallResult Unit × Storage × List Event :=
  if s.owner.isSome then (.err .AlreadyInitialized, s, [])
  else if is_zero_bytes owner then (.err .InvalidOwner, s, [])
  else if is_zero_bytes email_hash then (.err .InvalidEmailHash, s, [])
  else
    (.ok (),
     { s with owner := some owner, emailHash := some email_hash, nonce := some 0 },
     [Event.walletCreated owner email_hash])

/-- get_owner: pure read of the owner slot. -/
def get_owner (s : Storage) : CallResult Bytes32 :=
  match s.owner with
  | some o => .ok o
  | none => .err .NotInitialized

/-- get_email_hash: pure read of the email hash slot. -/
def get_email_hash (s : Storage) : CallResult Bytes32 :=
  match s.emailHash with
  | some h => .ok h
  | none => .err .NotInitialized

/-- get_nonce: pure read of the nonce slot. -/
def get_nonce (s : Storage) : CallResult Nat :=
  match s.nonce with
  | some n => .ok n
  | none => .err .NotInitialized

/-- get_and_increment_nonce: returns the pre-increment value and stores
value+1; NotInitialized when the slot is absent, InvalidNonce when
checked_add overflows. -/
def get_and_increment_nonce (s : Storage) :
    CallResult Nat × Storage × List Event :=
  match s.nonce with
  | none => (.err .NotInitialized, s, [])
  | some current_nonce =>
    match u64CheckedAddOne current_nonce with
    | none => (.err .InvalidNonce, s, [])
    | some new_nonce => (.ok current_nonce, { s with nonce := some new_nonce }, [])

/-- update_owner: key rotation, verified against the current owner key. -/
def update_owner (verify : VerifyFn) (s : Storage) (new_owner : Bytes32)
    (signature : Bytes64) : CallResult Unit × Storage × List Event :=
  match s.owner with
  | none => (.err .NotInitialized, s, [])
  | some current_owner =>
    if is_zero_bytes new_owner then (.err .InvalidOwner, s, [])
    else if current_owner = new_owner then (.err .SameOwner, s, [])
    else
      match get_nonce s with
      | .err e => (.err e, s, [])
      | .trap => (.trap, s, [])
      | .ok nonce =>
        if verify current_owner (updateOwnerMessage new_owner nonce) signature then
          match get_and_increment_nonce s with
          | (.ok _, s1, evs1) =>
            ((.ok ()),
             { s1 with owner := some new_owner },
             evs1 ++ [Event.keyRotated current_owner new_owner nonce])
          | (.err e, s1, evs1) => (.err e, s1, evs1)
          | (.trap, s1, evs1) => (.trap, s1, evs1)
        else (.trap, s, [])

/-- The main authorization entry point. The auth context argument is
ignored by the source, so it is threaded but unused here as well. -/
def __check_auth (verify : VerifyFn) (s : Storage) (signature_payload : Bytes32)
    (signature : Bytes64) (_auth_context : List Nat) :
    CallResult Unit × Storage × List Event :=
  match s.owner with
  | none => (.err .NotInitialized, s, [])
  | some owner =>
    match get_nonce s with
    | .err e => (.err e, s, [])
    | .trap => (.trap, s, [])
    | .ok expected_nonce =>
      if verify owner (authMessage signature_payload expected_nonce) signature then
        match get_and_increment_nonce s with
        | (.ok _, s1, evs1) =>
          ((.ok ()), s1, evs1 ++ [Event.authSuccess owner expected_nonce])
        | (.err e, s1, evs1) => (.err e, s1, evs1)
        | (.trap, s1, evs1) => (.trap, s1, evs1)
      else (.trap, s, [])

/-- The empty storage of a freshly deployed instance. -/
def storageEmpty : Storage :=
  { owner := none, emailHash := none, nonce := none }

/-- Iterate get_and_increment_nonce n times from s, collecting the n
results in call order together with the final storage. -/
def consumeSeq (s : Storage) : Nat → List (CallResult Nat) × Storage
  | 0 => ([], s)
  | n + 1 =>
    let p := consumeSeq s n
    let q := get_and_increment_nonce p.2
    (p.1 ++ [q.1], q.2.1)

/-- A concrete all-zero 32-byte value. -/
def zeros32 : Bytes32 := ⟨List.replicate 32 0, by simp⟩

/-- A concrete all-ones 32-byte value. -/
def ones32 : Bytes32 := ⟨List.replicate 32 1, by simp⟩

/-- A concrete 32-byte value of all twos. -/
def twos32 : Bytes32 := ⟨List.replicate 32 2, by simp⟩

/-- A concrete 64-byte signature value. -/
def sig64 : Bytes64 := ⟨List.replicate 64 7, by simp⟩

/-- A concrete oracle that accepts everything. -/
def verifyAll : VerifyFn := fun _ _ _ => true

/-- A concrete oracle that rejects everything. -/
def verifyNone : VerifyFn := fun _ _ _ => false

/-- A concrete initialized storage: owner all ones, email all twos, nonce 0. -/
def storageInit0 : Storage :=
  { owner := some ones32, emailHash := some twos32, nonce := some 0 }

/-- The storage states reachable from a fresh deployment by any sequence of
contract calls with any inputs and any oracle. -/
inductive Reachable : Storage → Prop where
  | start : Reachable storageEmpty
  | step_init (s : Storage) (o e : Bytes32) :
      Reachable s → Reachable (init s o e).2.1
  | step_update (v : VerifyFn) (s : Storage) (no : Bytes32) (sig : Bytes64) :
      Reachable s → Reachable (update_owner v s no sig).2.1
  | step_auth (v : VerifyFn) (s : Storage) (p : Bytes32) (sig : Bytes64) (ctx : List Nat) :
      Reachable s → Reachable (__check_auth v s p sig ctx).2.1
  | step_gain (s : Storage) :
      Reachable s → Reachable (get_and_increment_nonce s).2.1

/-- The identity invariant: whenever the owner or email slot is populated,
its value is not the all-zero sentinel. -/
def GoodStorage (s : Storage) : Prop :=
  (∀ o, s.owner = some o → is_zero_bytes o = false) ∧
  (∀ h, s.emailHash = some h → is_zero_bytes h = false)

/-- Big-endian u64 encoding is injective on the 64-bit range. -/
theorem u64ToBeBytes_inj {m n : Nat} (hm : m < 2 ^ 64) (hn : n < 2 ^ 64)
    (h : u64ToBeBytes m = u64ToBeBytes n) : m = n := by
  simp only [u64ToBeBytes, List.cons.injEq, and_true] at h
  obtain ⟨h1, h2, h3, h4, h5, h6, h7, h8⟩ := h
  omega

/-- Directed rewrite: get_and_increment_nonce on an absent nonce slot. -/
theorem gain_none {s : Storage} (hn : s.nonce = none) :
    get_and_increment_nonce s = (.err .NotInitialized, s, []) := by
  simp only [get_and_increment_nonce, hn]

/-- Directed rewrite: get_and_increment_nonce below the overflow bound. -/
theorem gain_some_lt {s : Storage} {n : Nat} (hn : s.nonce = some n)
    (hlt : n + 1 < 2 ^ 64) :
    get_and_increment_nonce s = (.ok n, { s with nonce := some (n + 1) }, []) := by
  simp only [get_and_increment_nonce, hn, u64CheckedAddOne, if_pos hlt]

/-- Directed rewrite: get_and_increment_nonce at the overflow bound. -/
theorem gain_some_overflow {s : Storage} {n : Nat} (hn : s.nonce = some n)
    (hlt : ¬n + 1 < 2 ^ 64) :
    get_and_increment_nonce s = (.err .InvalidNonce, s, []) := by
  simp only [get_and_increment_nonce, hn, u64CheckedAddOne, if_neg hlt]

/-- Complete case analysis of init: every run either fails leaving storage
and events untouched, or the guards all passed and the identity is written. -/
theorem init_cases (s : Storage) (owner email_hash : Bytes32) :
    (∃ e, init s owner email_hash = (.err e, s, [])) ∨
    (s.owner = none ∧ is_zero_bytes owner = false ∧ is_zero_bytes email_hash = false ∧
     init s owner email_hash =
       (.ok (), { s with owner := some owner, emailHash := some email_hash, nonce := some 0 },
        [Event.walletCreated owner email_hash])) := by
  cases ho : s.owner with
  | some o => exact Or.inl ⟨.AlreadyInitialized, by simp [init, ho]⟩
  | none =>
    by_cases h2 : is_zero_bytes owner = true
    · exact Or.inl ⟨.InvalidOwner, by simp [init, ho, h2]⟩
    · by_cases h3 : is_zero_bytes email_hash = true
      · exact Or.inl ⟨.InvalidEmailHash, by simp [init, ho, h2, h3]⟩
      · exact Or.inr ⟨rfl, by simpa using h2, by simpa using h3,
          by simp [init, ho, h2, h3]⟩

/-- Complete case analysis of get_and_increment_nonce. -/
theorem gain_cases (s : Storage) :
    (∃ e, get_and_increment_nonce s = (.err e, s, [])) ∨
    (∃ n, s.nonce = some n ∧ n + 1 < 2 ^ 64 ∧
       get_and_increment_nonce s = (.ok n, { s with nonce := some (n + 1) }, [])) := by
  cases hn : s.nonce with
  | none => exact Or.inl ⟨.NotInitialized, gain_none hn⟩
  | some n =>
    by_cases hlt : n + 1 < 2 ^ 64
    · exact Or.inr ⟨n, rfl, hlt, gain_some_lt hn hlt⟩
    · exact Or.inl ⟨.InvalidNonce, gain_some_overflow hn hlt⟩

/-- Complete case analysis of update_owner. -/
theorem update_owner_cases (verify : VerifyFn) (s : Storage) (new_owner : Bytes32)
    (sig : Bytes64) :
    (∃ e, update_owner verify s new_owner sig = (.err e, s, [])) ∨
    (update_owner verify s new_owner sig = (.trap, s, [])) ∨
    (∃ o n, s.owner = some o ∧ s.nonce = some n ∧ n + 1 < 2 ^ 64 ∧
      is_zero_bytes new_owner = false ∧ o ≠ new_owner ∧
      verify o (updateOwnerMessage new_owner n) sig = true ∧
      update_owner verify s new_owner sig =
        (.ok (), { s with owner := some new_owner, nonce := some (n + 1) },
         [Event.keyRotated o new_owner n])) := by
  cases ho : s.owner with
  | none => exact Or.inl ⟨.NotInitialized, by simp [update_owner, ho]⟩
  | some o =>
    by_cases hz : is_zero_bytes new_owner = true
    · exact Or.inl ⟨.InvalidOwner, by simp [update_owner, ho, hz]⟩
    · by_cases he : o = new_owner
      · exact Or.inl ⟨.SameOwner, by simp [update_owner, ho, hz, he]⟩
      · cases hn : s.nonce with
        | none =>
          exact Or.inl ⟨.NotInitialized, by simp [update_owner, get_nonce, ho, hz, he, hn]⟩
        | some n =>
          by_cases hv : verify o (updateOwnerMessage new_owner n) sig = true
          · by_cases hlt : n + 1 < 2 ^ 64
            · refine Or.inr (Or.inr ⟨o, n, rfl, rfl, hlt, by simpa using hz, he, hv, ?_⟩)
              simp [update_owner, get_nonce, ho, hz, he, hn, hv, gain_some_lt hn hlt]
            · refine Or.inl ⟨.InvalidNonce, ?_⟩
              simp [update_owner, get_nonce, ho, hz, he, hn, hv, gain_some_overflow hn hlt]
          · refine Or.inr (Or.inl ?_)
            simp [update_owner, get_nonce, ho, hz, he, hn, hv]

/-- Complete case analysis of the main authorization entry point. -/
theorem check_auth_cases (verify : VerifyFn) (s : Storage) (payload : Bytes32)
    (sig : Bytes64) (ctx : List Nat) :
    (∃ e, __check_auth verify s payload sig ctx = (.err e, s, [])) ∨
    (__check_auth verify s payload sig ctx = (.trap, s, [])) ∨
    (∃ o n, s.owner = some o ∧ s.nonce = some n ∧ n + 1 < 2 ^ 64 ∧
      verify o (authMessage payload n) sig = true ∧
      __check_auth verify s payload sig ctx =
        (.ok (), { s with nonce := some (n + 1) }, [Event.authSuccess o n])) := by
  cases ho : s.owner with
  | none => exact Or.inl ⟨.NotInitialized, by simp [__check_auth, ho]⟩
  | some o =>
    cases hn : s.nonce with
    | none =>
      exact Or.inl ⟨.NotInitialized, by simp [__check_auth, get_nonce, ho, hn]⟩
    | some n =>
      by_cases hv : verify o (authMessage payload n) sig = true
      · by_cases hlt : n + 1 < 2 ^ 64
        · refine Or.inr (Or.inr ⟨o, n, rfl, rfl, hlt, hv, ?_⟩)
          simp [__check_auth, get_nonce, ho, hn, hv, gain_some_lt hn hlt]
        · refine Or.inl ⟨.InvalidNonce, ?_⟩
          simp [__check_auth, get_nonce, ho, hn, hv, gain_some_overflow hn hlt]
      · refine Or.inr (Or.inl ?_)
        simp [__check_auth, get_nonce, ho, hn, hv]

/-- The full trace of n iterated nonce consumptions from a state whose
counter holds k: the i-th call returns k+i and the counter ends at k+n. -/
theorem consumeSeq_spec (n : Nat) :
    ∀ (s : Storage) (k : Nat), s.nonce = some k → k + n < 2 ^ 64 →
    (consumeSeq s n).1 = (List.range n).map (fun i => CallResult.ok (k + i)) ∧
    (consumeSeq s n).2 = { s with nonce := some (k + n) } := by
  induction n with
  | zero =>
    intro s k hk _
    rcases s with ⟨so, se, sn⟩
    simp_all [consumeSeq]
  | succ n ih =>
    intro s k hk hlt
    obtain ⟨h1, h2⟩ := ih s k hk (by omega)
    have hn2 : (consumeSeq s n).2.nonce = some (k + n) := by rw [h2]
    have hg := gain_some_lt hn2 (by omega)
    constructor
    · simp [consumeSeq, h1, hg, List.range_succ]
    · simp only [consumeSeq, hg, h2]
      rcases s with ⟨so, se, sn⟩
      rw [gain_some_lt rfl (by omega)]
      simp [Nat.add_assoc]

/-- C1: __check_auth verifies exactly the canonical message consisting of the
32-byte challenge followed by the big-endian encoding of the peeked
pre-increment nonce (the outcome depends on the oracle only through that one
message); on success the nonce is consumed exactly once and the AuthSuccess
event carries the pre-increment nonce; on rejection nothing changes; and a
signature bound to the nonce-N message fails once the stored nonce differs
from N, with no mutation and no event. -/
theorem check_auth_nonce_binding :
    ∀ (verify : VerifyFn) (s : Storage) (o payload : Bytes32) (sig : Bytes64)
      (ctx : List Nat) (n : Nat),
    s.owner = some o → s.nonce = some n →
    ((∀ v1 v2 : VerifyFn,
        v1 o (authMessage payload n) sig = v2 o (authMessage payload n) sig →
        __check_auth v1 s payload sig ctx = __check_auth v2 s payload sig ctx) ∧
     (verify o (authMessage payload n) sig = true → n + 1 < 2 ^ 64 →
        __check_auth verify s payload sig ctx =
          (.ok (), { s with nonce := some (n + 1) }, [Event.authSuccess o n])) ∧
     (verify o (authMessage payload n) sig = false →
        __check_auth verify s payload sig ctx = (.trap, s, [])) ∧
     (∀ N, n < 2 ^ 64 → N < 2 ^ 64 → n ≠ N →
        (∀ m, verify o m sig = true → m = authMessage payload N) →
        __check_auth verify s payload sig ctx = (.trap, s, []))) := by
  intro verify s o payload sig ctx n ho hn
  refine ⟨?_, ?_, ?_, ?_⟩
  · intro v1 v2 h
    simp only [__check_auth, get_nonce, ho, hn]
    rw [h]
  · intro hv hlt
    simp [__check_auth, get_nonce, ho, hn, hv, gain_some_lt hn hlt]
  · intro hv
    simp [__check_auth, get_nonce, ho, hn, hv]
  · intro N hn64 hN64 hne hbind
    have hfalse : verify o (authMessage payload n) sig = false := by
      cases hb : verify o (authMessage payload n) sig with
      | false => rfl
      | true =>
        have hmsg := hbind _ hb
        have hbe : u64ToBeBytes n = u64ToBeBytes N := by
          simpa [authMessage] using hmsg
        exact absurd (u64ToBeBytes_inj hn64 hN64 hbe) hne
    simp [__check_auth, get_nonce, ho, hn, hfalse]

/-- Witness for C1: a concrete successful authorization consumes the nonce
once and emits the AuthSuccess event with the pre-increment nonce. -/
theorem check_auth_nonce_binding_witness :
    __check_auth verifyAll storageInit0 twos32 sig64 [] =
      (.ok (), { storageInit0 with nonce := some 1 }, [Event.authSuccess ones32 0]) :=
  (check_auth_nonce_binding verifyAll storageInit0 ones32 twos32 sig64 [] 0
      rfl rfl).2.1 rfl (by decide)

/-- C2: every error return of init, update_owner, __check_auth, or
get_and_increment_nonce leaves the whole storage (owner, email hash, nonce)
equal to its pre-call value and emits no event. -/
theorem error_rollback :
    ∀ (verify : VerifyFn) (s : Storage) (owner email_hash new_owner payload : Bytes32)
      (sig : Bytes64) (ctx : List Nat) (e : Error),
    ((init s owner email_hash).1 = .err e →
       (init s owner email_hash).2.1 = s ∧ (init s owner email_hash).2.2 = []) ∧
    ((update_owner verify s new_owner sig).1 = .err e →
       (update_owner verify s new_owner sig).2.1 = s ∧
       (update_owner verify s new_owner sig).2.2 = []) ∧
    ((__check_auth verify s payload sig ctx).1 = .err e →
       (__check_auth verify s payload sig ctx).2.1 = s ∧
       (__check_auth verify s payload sig ctx).2.2 = []) ∧
    ((get_and_increment_nonce s).1 = .err e →
       (get_and_increment_nonce s).2.1 = s ∧ (get_and_increment_nonce s).2.2 = []) := by
  intro verify s owner email_hash new_owner payload sig ctx e
  refine ⟨?_, ?_, ?_, ?_⟩
  · rcases init_cases s owner email_hash with ⟨e', heq⟩ | ⟨-, -, -, heq⟩ <;>
      rw [heq] <;> simp
  · rcases update_owner_cases verify s new_owner sig with
      ⟨e', heq⟩ | heq | ⟨o, n, -, -, -, -, -, -, heq⟩ <;> rw [heq] <;> simp
  · rcases check_auth_cases verify s payload sig ctx with
      ⟨e', heq⟩ | heq | ⟨o, n, -, -, -, -, heq⟩ <;> rw [heq] <;> simp
  · rcases gain_cases s with ⟨e', heq⟩ | ⟨n, -, -, heq⟩ <;> rw [heq] <;> simp

/-- Witness for C2: the failing nonce consumption on an uninitialized
instance leaves the storage untouched and emits nothing. -/
theorem error_rollback_witness :
    (get_and_increment_nonce storageEmpty).2.1 = storageEmpty ∧
    (get_and_increment_nonce storageEmpty).2.2 = [] :=
  (error_rollback verifyAll storageEmpty ones32 ones32 ones32 ones32 sig64 []
      .NotInitialized).2.2.2 (by decide)

/-- C3 counterexample: on a concrete initialized state with an oracle that
rejects, __check_auth traps (the SDK 22.x ed25519_verify panic) and does not
return the typed error InvalidSignature, refuting the claim that oracle
rejection surfaces as the recoverable InvalidSignature error. -/
theorem check_auth_reject_is_trap_not_error :
    (__check_auth verifyNone storageInit0 twos32 sig64 []).1 = CallResult.trap ∧
    (__check_auth verifyNone storageInit0 twos32 sig64 []).1 ≠
      CallResult.err Error.InvalidSignature := by
  decide

/-- C3 amended: on any input the oracle rejects, __check_auth and
update_owner abort by trap (the unconditional panic of ed25519_verify in
SDK 22.x) rather than returning InvalidSignature, and the abort happens
before any mutation: the storage is unchanged and no event is emitted. -/
theorem oracle_reject_traps_unchanged :
    ∀ (verify : VerifyFn) (s : Storage) (o payload new_owner : Bytes32)
      (sig : Bytes64) (ctx : List Nat) (n : Nat),
    s.owner = some o → s.nonce = some n →
    (verify o (authMessage payload n) sig = false →
       __check_auth verify s payload sig ctx = (.trap, s, [])) ∧
    (is_zero_bytes new_owner = false → o ≠ new_owner →
       verify o (updateOwnerMessage new_owner n) sig = false →
       update_owner verify s new_owner sig = (.trap, s, [])) := by
  intro verify s o payload new_owner sig ctx n ho hn
  constructor
  · intro hv
    simp [__check_auth, get_nonce, ho, hn, hv]
  · intro hz hne hv
    simp [update_owner, get_nonce, ho, hn, hz, hne, hv]

/-- Witness for the amended C3: both entry points trap with unchanged
storage on a concrete rejecting oracle. -/
theorem oracle_reject_traps_unchanged_witness :
    __check_auth verifyNone storageInit0 twos32 sig64 [] = (.trap, storageInit0, []) ∧
    update_owner verifyNone storageInit0 twos32 sig64 = (.trap, storageInit0, []) :=
  ⟨(oracle_reject_traps_unchanged verifyNone storageInit0 ones32 twos32 twos32
      sig64 [] 0 rfl rfl).1 rfl,
   (oracle_reject_traps_unchanged verifyNone storageInit0 ones32 twos32 twos32
      sig64 [] 0 rfl rfl).2 (by decide) (by decide) rfl⟩

/-- C4: get_and_increment_nonce fails NotInitialized on an absent slot,
fails InvalidNonce at the 64-bit maximum leaving the value unchanged, and
otherwise returns the pre-increment value while persisting value+1; hence
after initialization the i-th of n successful consecutive calls returns i-1
and a final get_nonce returns n. -/
theorem get_and_increment_nonce_contract :
    ∀ (s : Storage),
    (s.nonce = none →
       get_and_increment_nonce s = (.err .NotInitialized, s, [])) ∧
    (s.nonce = some (2 ^ 64 - 1) →
       get_and_increment_nonce s = (.err .InvalidNonce, s, [])) ∧
    (∀ v, s.nonce = some v → v + 1 < 2 ^ 64 →
       get_and_increment_nonce s = (.ok v, { s with nonce := some (v + 1) }, [])) ∧
    (∀ n, s.nonce = some 0 → n < 2 ^ 64 →
       (consumeSeq s n).1 = (List.range n).map (fun i => CallResult.ok i) ∧
       get_nonce (consumeSeq s n).2 = .ok n) := by
  intro s
  refine ⟨?_, ?_, ?_, ?_⟩
  · exact fun h => gain_none h
  · intro h
    exact gain_some_overflow h (by omega)
  · intro v hv hlt
    exact gain_some_lt hv hlt
  · intro n h0 hn
    obtain ⟨h1, h2⟩ := consumeSeq_spec n s 0 h0 (by omega)
    refine ⟨by simpa using h1, ?_⟩
    rw [h2]
    simp [get_nonce]

/-- Witness for C4: from a freshly initialized instance, three consecutive
consumptions return 0, 1, 2 and the final peek returns 3. -/
theorem get_and_increment_nonce_contract_witness :
    (consumeSeq storageInit0 3).1 = (List.range 3).map (fun i => CallResult.ok i) ∧
    get_nonce (consumeSeq storageInit0 3).2 = .ok 3 :=
  (get_and_increment_nonce_contract storageInit0).2.2.2 3 rfl (by decide)

/-- C5: update_owner checks its preconditions in order before any oracle
call or nonce consumption: a missing owner yields NotInitialized, an
all-zero new owner yields InvalidOwner, and a new owner equal to the current
owner yields SameOwner; in each case the outcome is the same for every
oracle and the storage, including the nonce, is unchanged with no event. -/
theorem update_owner_guard_order :
    ∀ (verify : VerifyFn) (s : Storage) (new_owner : Bytes32) (sig : Bytes64),
    (s.owner = none →
       update_owner verify s new_owner sig = (.err .NotInitialized, s, [])) ∧
    (∀ o, s.owner = some o → is_zero_bytes new_owner = true →
       update_owner verify s new_owner sig = (.err .InvalidOwner, s, [])) ∧
    (∀ o, s.owner = some o → is_zero_bytes new_owner = false → new_owner = o →
       update_owner verify s new_owner sig = (.err .SameOwner, s, [])) := by
  intro verify s new_owner sig
  refine ⟨?_, ?_, ?_⟩
  · intro h
    simp [update_owner, h]
  · intro o ho hz
    simp [update_owner, ho, hz]
  · intro o ho hz he
    subst he
    simp [update_owner, ho, hz]

/-- Witness for C5: rotating to the current owner fails SameOwner with
unchanged storage, identically under an accepting and a rejecting oracle. -/
theorem update_owner_guard_order_witness :
    update_owner verifyAll storageInit0 ones32 sig64 =
      (.err .SameOwner, storageInit0, []) ∧
    update_owner verifyNone storageInit0 ones32 sig64 =
      (.err .SameOwner, storageInit0, []) :=
  ⟨(update_owner_guard_order verifyAll storageInit0 ones32 sig64).2.2 ones32 rfl
      (by decide) rfl,
   (update_owner_guard_order verifyNone storageInit0 ones32 sig64).2.2 ones32 rfl
      (by decide) rfl⟩

/-- C6: for every challenge, new owner, and pair of nonces, the canonical
rotation message (domain tag, new owner, big-endian nonce) differs from the
canonical general-authorization message (challenge, big-endian nonce). -/
theorem rotation_auth_messages_disjoint :
    ∀ (challenge new_owner : Bytes32) (n1 n2 : Nat),
    (updateOwnerMessage new_owner n1 == authMessage challenge n2) = false := by
  intro challenge new_owner n1 n2
  rw [beq_eq_false_iff_ne]
  intro h
  have hl := congrArg List.length h
  simp [updateOwnerMessage, authMessage, u64ToBeBytes, updateOwnerTag,
    challenge.2, new_owner.2] at hl

/-- C7: init fails AlreadyInitialized on a present owner slot without
modifying state, rejects all-zero owner and email inputs leaving storage
untouched, on success persists owner, email, and nonce 0 and emits
WalletCreated, and a second init after a successful one always fails with
AlreadyInitialized leaving the post-first-call state intact. -/
theorem init_contract :
    ∀ (s : Storage) (owner email_hash : Bytes32),
    (s.owner.isSome = true →
       init s owner email_hash = (.err .AlreadyInitialized, s, [])) ∧
    (s.owner = none → is_zero_bytes owner = true →
       init s owner email_hash = (.err .InvalidOwner, s, [])) ∧
    (s.owner = none → is_zero_bytes owner = false → is_zero_bytes email_hash = true →
       init s owner email_hash = (.err .InvalidEmailHash, s, [])) ∧
    (s.owner = none → is_zero_bytes owner = false → is_zero_bytes email_hash = false →
       init s owner email_hash =
         (.ok (), { s with owner := some owner, emailHash := some email_hash,
                           nonce := some 0 },
          [Event.walletCreated owner email_hash])) ∧
    (∀ s2 evs o2 e2, init s owner email_hash = (.ok (), s2, evs) →
       init s2 o2 e2 = (.err .AlreadyInitialized, s2, [])) := by
  intro s owner email_hash
  refine ⟨?_, ?_, ?_, ?_, ?_⟩
  · intro h
    simp [init, h]
  · intro ho hz
    simp [init, ho, hz]
  · intro ho hzo hze
    simp [init, ho, hzo, hze]
  · intro ho hzo hze
    simp [init, ho, hzo, hze]
  · intro s2 evs o2 e2 h
    rcases init_cases s owner email_hash with ⟨e', heq⟩ | ⟨-, -, -, heq⟩
    · rw [heq] at h
      simp at h
    · rw [heq] at h
      simp only [Prod.mk.injEq, true_and] at h
      obtain ⟨h1, -⟩ := h
      subst h1
      simp [init]

/-- Witness for C7: re-initializing the concrete initialized instance fails
AlreadyInitialized and leaves its state intact. -/
theorem init_contract_witness :
    init storageInit0 ones32 twos32 = (.err .AlreadyInitialized, storageInit0, []) :=
  (init_contract storageEmpty ones32 twos32).2.2.2.2 storageInit0
    [Event.walletCreated ones32 twos32] ones32 twos32 (by decide)

/-- C8: in every state reachable from a fresh deployment by any sequence of
calls, a populated owner slot and a populated email slot never hold the
all-zero sentinel. -/
theorem reachable_nonzero_identity :
    ∀ s, Reachable s → GoodStorage s := by
  intro s h
  induction h with
  | start =>
    exact ⟨fun o ho => by simp [storageEmpty] at ho,
           fun e he => by simp [storageEmpty] at he⟩
  | step_init s o e hr ih =>
    rcases init_cases s o e with ⟨e', heq⟩ | ⟨-, hzo, hze, heq⟩ <;> rw [heq]
    · exact ih
    · refine ⟨fun o' ho' => ?_, fun e' he' => ?_⟩
      · have hoo : o = o' := by simpa using ho'
        exact hoo ▸ hzo
      · have hee : e = e' := by simpa using he'
        exact hee ▸ hze
  | step_update v s no sig hr ih =>
    rcases update_owner_cases v s no sig with
      ⟨e', heq⟩ | heq | ⟨o, n, -, -, -, hz, -, -, heq⟩ <;> rw [heq]
    · exact ih
    · exact ih
    · refine ⟨fun o' ho' => ?_, fun e' he' => ?_⟩
      · have hoo : no = o' := by simpa using ho'
        exact hoo ▸ hz
      · exact ih.2 e' (by simpa using he')
  | step_auth v s p sig ctx hr ih =>
    rcases check_auth_cases v s p sig ctx with
      ⟨e', heq⟩ | heq | ⟨o, n, -, -, -, -, heq⟩ <;> rw [heq]
    · exact ih
    · exact ih
    · exact ⟨fun o' ho' => ih.1 o' (by simpa using ho'),
             fun e' he' => ih.2 e' (by simpa using he')⟩
  | step_gain s hr ih =>
    rcases gain_cases s with ⟨e', heq⟩ | ⟨n, -, -, heq⟩ <;> rw [heq]
    · exact ih
    · exact ⟨fun o' ho' => ih.1 o' (by simpa using ho'),
             fun e' he' => ih.2 e' (by simpa using he')⟩

/-- Witness for C8: the concrete state reached by a successful init
satisfies the non-zero identity invariant. -/
theorem reachable_nonzero_identity_witness : GoodStorage storageInit0 :=
  reachable_nonzero_identity storageInit0
    ((show (init storageEmpty ones32 twos32).2.1 = storageInit0 by decide) ▸
      Reachable.step_init storageEmpty ones32 twos32 Reachable.start)

/-- C9: a successful update_owner changes exactly the owner slot (to the
requested new owner) and the nonce slot (advanced by exactly one), leaves
the email commitment unchanged, and emits exactly the KeyRotated event
carrying the old owner, the new owner, and the pre-increment nonce. -/
theorem update_owner_success_frame :
    ∀ (verify : VerifyFn) (s : Storage) (new_owner : Bytes32) (sig : Bytes64)
      (s2 : Storage) (evs : List Event),
    update_owner verify s new_owner sig = (.ok (), s2, evs) →
    ∃ o n, s.owner = some o ∧ s.nonce = some n ∧
      s2 = { s with owner := some new_owner, nonce := some (n + 1) } ∧
      evs = [Event.keyRotated o new_owner n] := by
  intro verify s new_owner sig s2 evs h
  rcases update_owner_cases verify s new_owner sig with
    ⟨e', heq⟩ | heq | ⟨o, n, ho, hn, -, -, -, -, heq⟩
  · rw [heq] at h
    simp at h
  · rw [heq] at h
    simp at h
  · rw [heq] at h
    simp only [Prod.mk.injEq, true_and] at h
    exact ⟨o, n, ho, hn, h.1.symm, h.2.symm⟩

/-- Witness for C9: the concrete successful rotation from the initialized
instance to the all-twos key. -/
theorem update_owner_success_frame_witness :
    ∃ o n, storageInit0.owner = some o ∧ storageInit0.nonce = some n ∧
      ({ owner := some twos32, emailHash := some twos32, nonce := some 1 } : Storage) =
        { storageInit0 with owner := some twos32, nonce := some (n + 1) } ∧
      [Event.keyRotated ones32 twos32 0] = [Event.keyRotated o twos32 n] :=
  update_owner_success_frame verifyAll storageInit0 twos32 sig64
    { owner := some twos32, emailHash := some twos32, nonce := some 1 }
    [Event.keyRotated ones32 twos32 0] (by decide)

/-- C10: the outcome, final storage, and emitted events of __check_auth do
not depend on the auth context argument, which the source ignores. -/
theorem check_auth_context_irrelevant :
    ∀ (verify : VerifyFn) (s : Storage) (payload : Bytes32) (sig : Bytes64)
      (ctx1 ctx2 : List Nat),
    __check_auth verify s payload sig ctx1 = __check_auth verify s payload sig ctx2 := by
  intro verify s payload sig ctx1 ctx2
  rfl

end Accesly
